import Mathlib

/-!
Verification development for the CineBus repository (billboard scraping, bus
network, city routing).

The Python sources are shallowly embedded below.  NetworkX graphs are
modelled as association lists of nodes (with an attribute record) and edges
(with an attribute record); Python float values are modelled as elements of a
linear ordered commutative ring `α`, instantiated with `ℚ` (exact arithmetic)
in general statements and with `ℤ` in concrete scenarios whose data is
integral.  The great-circle distance computed by `osmnx.distance.nearest_nodes`
and `haversine` is kept as an explicit function parameter `d` of the
definitions that use it, since its trigonometric formula plays no role in any
of the verified properties.  Functions performing I/O (downloading the buses
graph, geocoding) are modelled by passing their result (or, for the geocoder,
the function itself) as an explicit argument.
-/

namespace CineBus

/-- Node attribute dictionary, as populated by `buses.get_buses_graph`
(`name`, `line`, `x`, `y`) and by `city.build_city_graph` (`type`).  Fields
that a node may lack are `Option`s; every node in play carries coordinates. -/
structure NodeAttrs (α : Type) where
  x : α
  y : α
  name : Option String := none
  line : Option String := none
  type : Option String := none
deriving DecidableEq

/-- Edge attribute dictionary: `buses.get_buses_graph` stores the geodesic
distance in meters under `distance`; OSMnx street edges carry `length`. -/
structure EdgeAttrs (α : Type) where
  distance : Option α := none
  length : Option α := none
deriving DecidableEq

/-- A NetworkX graph: nodes keyed by integer id with attribute dictionaries,
and an (undirected) edge list with attribute dictionaries. -/
structure Graph (α : Type) where
  nodes : List (ℕ × NodeAttrs α)
  edges : List (ℕ × ℕ × EdgeAttrs α)
deriving DecidableEq

/-- The list of node identifiers, in insertion order. -/
def nodeIds {α : Type} (g : Graph α) : List ℕ := g.nodes.map Prod.fst

/-- Attribute lookup `g.nodes[n]`. -/
def getNodeAttrs {α : Type} (g : Graph α) (n : ℕ) : Option (NodeAttrs α) :=
  (g.nodes.find? (fun p => p.1 == n)).map Prod.snd

/-- Well-formedness: every edge endpoint is a node of the graph (NetworkX
`add_edge` guarantees this by inserting missing endpoints). -/
def Graph.WF {α : Type} (g : Graph α) : Prop :=
  ∀ e ∈ g.edges, e.1 ∈ nodeIds g ∧ e.2.1 ∈ nodeIds g

instance {α : Type} (g : Graph α) : Decidable g.WF :=
  inferInstanceAs (Decidable (∀ e ∈ g.edges, e.1 ∈ nodeIds g ∧ e.2.1 ∈ nodeIds g))

/-- The attribute dictionary of the (undirected) edge between `u` and `v`,
if present. -/
def findEdge {α : Type} (g : Graph α) (u v : ℕ) : Option (EdgeAttrs α) :=
  (g.edges.find? (fun e => (e.1 == u && e.2.1 == v) || (e.1 == v && e.2.1 == u))).map
    (fun e => e.2.2)

/-- Adjacency in the undirected graph. -/
def adjacent {α : Type} (g : Graph α) (u v : ℕ) : Bool :=
  (findEdge g u v).isSome

section Machinery

variable {α : Type} [LinearOrderedCommRing α]

/-- NetworkX edge weight for `weight='length'`: the `length` attribute when
present, and the default weight `1` otherwise (`data.get(weight, 1)`).  The
buses graph stores its distances under `distance`, not `length`, so all of
its edges get the default weight `1`. -/
def weightLength (a : EdgeAttrs α) : α := a.length.getD 1

/-- Effective weight of the edge between `u` and `v` (`0` as a don't-care
value when no such edge exists; it is only applied along adjacent pairs). -/
def edgeW (g : Graph α) (u v : ℕ) : α := ((findEdge g u v).map weightLength).getD 0

/-- Total `weight='length'` cost of a node path. -/
def pathWeight (g : Graph α) : List ℕ → α
  | u :: v :: rest => edgeW g u v + pathWeight g (v :: rest)
  | _ => 0

/-- All duplicate-free walks from `u` to `t` avoiding `visited`, with at most
`fuel + 1` nodes.  This enumeration underlies the model of
`networkx.shortest_path`: with positive weights a weighted shortest path is
duplicate-free, so minimising over this list is minimising over all paths. -/
def simplePathsAux (g : Graph α) (t : ℕ) : ℕ → ℕ → List ℕ → List (List ℕ)
  | 0, u, _ => if u = t then [[t]] else []
  | fuel + 1, u, visited =>
    if u = t then [[t]]
    else
      ((nodeIds g).filter (fun v => adjacent g u v && !((u :: visited).contains v))).flatMap
        (fun v => (simplePathsAux g t fuel v (u :: visited)).map (fun p => u :: p))

/-- Model of `networkx.algorithms.shortest_paths.generic.shortest_path
(g, s, t, weight='length')`: a path from `s` to `t` of minimal total
`weight='length'` cost, or `none` when `t` is unreachable from `s`
(NetworkX raises `NetworkXNoPath` there).  NetworkX's Dijkstra returns some
minimal-cost path; ties between equally cheap paths are broken here by
enumeration order, an accepted nondeterminism never relied upon below. -/
def shortest_path (g : Graph α) (s t : ℕ) : Option (List ℕ) :=
  (simplePathsAux g t (nodeIds g).length s []).argmin (pathWeight g)

end Machinery

/-- A distance function on coordinate pairs, standing for the great-circle
(haversine) distance used by `osmnx.distance.nearest_nodes`. -/
def Metric (α : Type) : Type := α × α → α × α → α

/-- Model of `osmnx.distance.nearest_nodes(G, X, Y)` on an unprojected graph:
the id of the node whose `(y, x)` attributes minimise the great-circle
distance to `(Y, X)`, the first node in insertion order on ties. -/
def nearestNode {α : Type} [LinearOrderedCommRing α] (d : Metric α) (g : Graph α)
    (X Y : α) : Option ℕ :=
  (g.nodes.argmin (fun p => d (Y, X) (p.2.y, p.2.x))).map Prod.fst

/-- `city.Path`: its `__init__` stores `x`, `y`, `type` when `type` is
`'intersection'`, and only `node`, `type` otherwise. -/
inductive PathElem (α : Type) where
  | intersection (x : α) (y : α)
  | stop (node : ℕ)
deriving DecidableEq

/-- The `type` attribute of a `city.Path` object. -/
def PathElem.pathType {α : Type} : PathElem α → String
  | .intersection _ _ => "intersection"
  | .stop _ => "stop"

/-- `city.find_path(g, src, dst)`.  `busesGraph` stands for the result of the
`get_buses_graph()` call made inside `find_path`, and `d` for the
great-circle distance used by `nearest_nodes`.  The argument graph `g` is
bound by the signature but never used by the body.  `none` models an
exception escaping `find_path` (`nearest_nodes` on an empty graph raises and
is not caught); `some []` is the `NetworkXNoPath` handler's return value. -/
def find_path {α : Type} [LinearOrderedCommRing α] (d : Metric α) (busesGraph : Graph α)
    (g : Graph α) (src dst : α × α) : Option (List (PathElem α)) :=
  match nearestNode d busesGraph dst.2 dst.1, nearestNode d busesGraph src.2 src.1 with
  | some dstNearest, some srcNearest =>
    match shortest_path busesGraph srcNearest dstNearest with
    | some ns =>
      some (PathElem.intersection src.2 src.1 ::
        (ns.map PathElem.stop ++ [PathElem.intersection dst.2 dst.1]))
    | none => some []
  | _, _ => none

/-- The `node` fields of the `'stop'` elements of a `find_path` result. -/
def interiorNodes {α : Type} (p : List (PathElem α)) : List ℕ :=
  p.filterMap (fun e => match e with | .stop n => some n | _ => none)

/-- NetworkX node-attribute update on composition: attributes of the second
graph take precedence, key by key. -/
def mergeAttrs {α : Type} (old new : NodeAttrs α) : NodeAttrs α :=
  { x := new.x, y := new.y, name := new.name <|> old.name,
    line := new.line <|> old.line, type := new.type <|> old.type }

/-- Model of `networkx.compose(g1, g2)`: node set in `g1`-then-new-`g2`
order with `g2`'s attributes taking precedence, and the union of the edge
lists (the street and transit graphs composed by `build_city_graph` have
disjoint node sets, so no edge of one coincides with an edge of the other). -/
def nxCompose {α : Type} (g1 g2 : Graph α) : Graph α :=
  { nodes :=
      (g1.nodes.map (fun p =>
        match g2.nodes.find? (fun q => q.1 == p.1) with
        | some q => (p.1, mergeAttrs p.2 q.2)
        | none => p)) ++
      g2.nodes.filter (fun q => !(g1.nodes.any (fun p => p.1 == q.1))),
    edges := g1.edges ++ g2.edges }

/-- The in-place loop `for node in g.nodes: g.nodes[node]['type'] = ty`. -/
def setNodeType {α : Type} (ty : String) (g : Graph α) : Graph α :=
  { g with nodes := g.nodes.map (fun p => (p.1, { p.2 with type := some ty })) }

/-- `city.build_city_graph(g1, g2)`.  The function first mutates both
argument graphs in place, tagging every node of `g1` with
`type = 'intersection'` and every node of `g2` with `type = 'stop'`; it then
composes `g1` with `nx.MultiGraph(g2.to_undirected())` (both conversions
preserve the node and edge data of the already-undirected buses graph) and
returns the composition.  The result triple is the returned city graph
together with the post-call states of the two argument graphs, making the
in-place mutation observable.  The pickling of the city graph to disk
(`save_osmnx_graph`) is file I/O outside this model; it deletes only
`geometry` edge attributes, which none of these edges carry. -/
def build_city_graph {α : Type} (g1 g2 : Graph α) : Graph α × Graph α × Graph α :=
  let g1' := setNodeType "intersection" g1
  let g2' := setNodeType "stop" g2
  (nxCompose g1' g2', g1', g2')

/-- The edges of `g` incident to node `n`. -/
def incidentEdges {α : Type} (g : Graph α) (n : ℕ) : List (ℕ × ℕ × EdgeAttrs α) :=
  g.edges.filter (fun e => e.1 == n || e.2.1 == n)

/-- `city.calculate_travel_time(distance_in_km, speed_in_km_h)`: hours =
distance / speed, returned as minutes (`time_in_hours * 60`). -/
def calculate_travel_time (distance_in_km speed_in_km_h : ℚ) : ℚ :=
  let time_in_hours := distance_in_km / speed_in_km_h
  let time_in_minutes := time_in_hours * 60
  time_in_minutes

/-- `bus_speed = 20  # km/h`, configured in `city.plot_path`. -/
def bus_speed : ℚ := 20

/-- `walking_speed = 5  # km/h`, configured in `city.plot_path`. -/
def walking_speed : ℚ := 5

/-- Modelled from the spec: the repository has no `CostModel` component; the
spec defines its edge cost as `time = length_meters / (speed_kmh * 1000 /
3600)` seconds. -/
def specEdgeTime (lengthMeters speedKmh : ℚ) : ℚ :=
  lengthMeters / (speedKmh * 1000 / 3600)

/-- The length in meters of the bus edge between `u` and `v`: the `distance`
attribute stored by `buses.get_buses_graph` (geodesic meters). -/
def busEdgeLengthMeters (g : Graph ℚ) (u v : ℕ) : ℚ :=
  ((findEdge g u v).bind (fun a => a.distance)).getD 0

/-- Modelled from the spec: total CostModel time of a node path in the buses
graph, every edge of which is a bus hop (`Bus` mode, 20 km/h). -/
def specBusPathTime (g : Graph ℚ) : List ℕ → ℚ
  | u :: v :: rest => specEdgeTime (busEdgeLengthMeters g u v) 20 + specBusPathTime g (v :: rest)
  | _ => 0

/-- The `line` attributes of the non-`'intersection'` path elements whose
node carries both a `name` and a `line` attribute — the elements for which
`demo.main`'s leg loop prints a header. -/
def stopLines {α : Type} (g : Graph α) : List (PathElem α) → List String
  | [] => []
  | e :: rest =>
    match e with
    | .intersection _ _ => stopLines g rest
    | .stop n =>
      match getNodeAttrs g n with
      | some a =>
        match a.name, a.line with
        | some _, some l => l :: stopLines g rest
        | _, _ => stopLines g rest
      | none => stopLines g rest

/-- The leg-header loop of `demo.main`: walk the path with a `current_line`
accumulator (initially the empty string) and print the `line` of each
non-`'intersection'` element carrying `name` and `line` attributes whenever
it differs from `current_line`, updating the accumulator.  The nodes of a
`find_path` result are nodes of the graph being indexed, so the failed-lookup
branch is never taken there. -/
def demoLegLines {α : Type} (g : Graph α) : String → List (PathElem α) → List String
  | _, [] => []
  | cur, e :: rest =>
    match e with
    | .intersection _ _ => demoLegLines g cur rest
    | .stop n =>
      match getNodeAttrs g n with
      | some a =>
        match a.name, a.line with
        | some _, some l =>
          if l ≠ cur then l :: demoLegLines g l rest else demoLegLines g cur rest
        | _, _ => demoLegLines g cur rest
      | none => demoLegLines g cur rest

/-- Collapse each maximal run of equal consecutive strings after a run of
elements equal to `cur`. -/
def collapseAux (cur : String) : List String → List String
  | [] => []
  | b :: rest => if b = cur then collapseAux cur rest else b :: collapseAux b rest

/-- Collapse each maximal run of equal consecutive strings to its first
element: the canonical "one leg per maximal same-line run" grouping. -/
def collapseRuns : List String → List String
  | [] => []
  | a :: rest => a :: collapseAux a rest

/-- The "Calle" → "C/" substitution `billboard.get_lat_long` applies to its
address before geocoding: Python's `str.replace`, replacing every
non-overlapping occurrence left to right. -/
def replaceCalle : List Char → List Char
  | 'C' :: 'a' :: 'l' :: 'l' :: 'e' :: rest => 'C' :: '/' :: replaceCalle rest
  | c :: rest => c :: replaceCalle rest
  | [] => []

/-- Python's `"Calle" in address`. -/
def containsCalle : List Char → Bool
  | 'C' :: 'a' :: 'l' :: 'l' :: 'e' :: _ => true
  | _ :: rest => containsCalle rest
  | [] => false

/-- The address actually geocoded and matched by `billboard.get_lat_long`:
`if "Calle" in address: address = address.replace("Calle", "C/")`. -/
def canonicalizeAddress (address : String) : String :=
  if containsCalle address.data then String.mk (replaceCalle address.data) else address

/-- The local registry of `billboard.get_lat_long`: the six hard-coded
Barcelona cinema addresses checked when the geocoder finds no location, and
`none` (`(None, None)`) for every other address. -/
def hardcodedCoords (address : String) : Option (ℚ × ℚ) :=
  if address = "Gran Vía de les Corts Catalanes, 385, 08015 Barcelona" then
    some (41.37644410290286, 2.149453745956052)
  else if address = "C/ Aribau, 8, 08011 Barcelona" then
    some (41.38624248615302, 2.162546061491572)
  else if address = "Paseig de Gracia, 13, 08007 Barcelona" then
    some (41.389521242850776, 2.1674442707066204)
  else if address = "Sta Fé de Nou Mèxic s/n, 08017 Barcelona" then
    some (41.39409653060461, 2.136205065978579)
  else if address = "Passeig Potosí 2 - Centro Comercial La Maquinista, 08030 Barcelona" then
    some (41.43957036087736, 2.198350369068757)
  else if address = "Paseo Andreu Nin s/n - Pintor Alzamora, 08016 Barcelona" then
    some (41.43264617346267, 2.1817424582716707)
  else none

/-- `billboard.get_lat_long(address)`.  The external Nominatim geocoder is
passed in as `geocode`: `none` models `geolocator.geocode` raising an
exception (caught, yielding `(None, None)`), `some none` a `None` location
(triggering the local registry), and `some (some c)` a found location whose
`(latitude, longitude)` is returned.  The result `none` models the Python
return value `(None, None)`. -/
def get_lat_long (geocode : String → Option (Option (ℚ × ℚ))) (address : String) :
    Option (ℚ × ℚ) :=
  let address := canonicalizeAddress address
  match geocode address with
  | none => none
  | some none => hardcodedCoords address
  | some (some c) => some c

/-- A duplicate-free walk from `s` to `t` in `g`: what "a path between two
nodes" means throughout. -/
def IsPathNx {α : Type} (g : Graph α) (s t : ℕ) (p : List ℕ) : Prop :=
  p.head? = some s ∧ p.getLast? = some t ∧
    p.Chain' (fun a b => adjacent g a b = true) ∧ p.Nodup

/-! ### Concrete scenarios

Scenario data used by witnesses and counterexamples.  All numeric data is
integral, so the scenarios can be stated over any linear ordered commutative
ring; witnesses evaluate them over `ℤ` and cost computations over `ℚ`. -/

/-- Scenario A buses graph: stops `1`, `2`, `3`; a direct hop `1 – 3` of
1000 geodesic meters and a two-hop detour `1 – 2 – 3` of 100 + 100 meters. -/
def busGexA (α : Type) [LinearOrderedCommRing α] : Graph α :=
  { nodes := [
      (1, { x := 0, y := 0, name := some "Stop A", line := some "L1" }),
      (2, { x := 5, y := 5, name := some "Stop B", line := some "L1" }),
      (3, { x := 10, y := 0, name := some "Stop C", line := some "L1" })],
    edges := [
      (1, 3, { distance := some 1000 }),
      (1, 2, { distance := some 100 }),
      (2, 3, { distance := some 100 })] }

/-- A graph with no nodes and no edges. -/
def gEmpty (α : Type) : Graph α := { nodes := [], edges := [] }

/-- A concrete stand-in for the great-circle metric: squared Euclidean
distance on the coordinate plane.  It agrees with haversine on which node is
nearest in the scenarios below, where sources and destinations coincide
exactly with some node's coordinates. -/
def dSq : Metric ℤ := fun p q => (p.1 - q.1) * (p.1 - q.1) + (p.2 - q.2) * (p.2 - q.2)

/-- Scenario source `(lat, lon)`: exactly at stop `1`. -/
def srcEx : ℤ × ℤ := (0, 0)

/-- Scenario destination `(lat, lon)`: exactly at stop `3`. -/
def dstEx : ℤ × ℤ := (0, 10)

/-- The `find_path` result in Scenario A: raw endpoints around the one-hop
node path `[1, 3]`. -/
def pEx : List (PathElem ℤ) :=
  [.intersection 0 0, .stop 1, .stop 3, .intersection 10 0]

/-- A disconnected buses graph: stops `1` and `2`, no edge. -/
def busGdisc (α : Type) [LinearOrderedCommRing α] : Graph α :=
  { nodes := [
      (1, { x := 0, y := 0, name := some "Stop A", line := some "L1" }),
      (2, { x := 10, y := 0, name := some "Stop B", line := some "L2" })],
    edges := [] }

/-- Scenario D graph: four stops, two on line `L1` followed by two on line
`L2`. -/
def g5 : Graph ℤ :=
  { nodes := [
      (11, { x := 0, y := 0, name := some "Carrer A", line := some "L1" }),
      (12, { x := 1, y := 0, name := some "Carrer B", line := some "L1" }),
      (13, { x := 2, y := 0, name := some "Carrer C", line := some "L2" }),
      (14, { x := 3, y := 0, name := some "Carrer D", line := some "L2" })],
    edges := [
      (11, 12, { distance := some 100 }),
      (12, 13, { distance := some 100 }),
      (13, 14, { distance := some 100 })] }

/-- A Scenario D path: two consecutive bus hops on `L1` then two on `L2`. -/
def p5 : List (PathElem ℤ) :=
  [.intersection 0 0, .stop 11, .stop 12, .stop 13, .stop 14, .intersection 3 0]

/-- A city graph far from the bus network: its only node, `99`, is nowhere
near the scenario coordinates. -/
def gFar : Graph ℤ := { nodes := [(99, { x := 1000, y := 1000 })], edges := [] }

/-- A node entry without its `type` attribute: what `build_city_graph` must
preserve about its inputs apart from the `type` tag it writes. -/
def stripType {α : Type} (p : ℕ × NodeAttrs α) :
    ℕ × α × α × Option String × Option String :=
  (p.1, p.2.x, p.2.y, p.2.name, p.2.line)

/-- A one-intersection street graph whose node carries no `type` attribute. -/
def g1c : Graph ℤ := { nodes := [(1, { x := 0, y := 0 })], edges := [] }

/-- A one-stop transit graph whose stop has no edge. -/
def g2c : Graph ℤ :=
  { nodes := [(2, { x := 1, y := 1, name := some "Pl de Catalunya", line := some "100" })],
    edges := [] }

/-! ### Helper lemmas -/

section Lemmas

variable {α : Type} [LinearOrderedCommRing α]

lemma adjacent_mem {g : Graph α} (hwf : g.WF) {u v : ℕ} (h : adjacent g u v = true) :
    u ∈ nodeIds g ∧ v ∈ nodeIds g := by
  unfold adjacent findEdge at h
  rw [Option.isSome_map'] at h
  obtain ⟨e, he⟩ := Option.isSome_iff_exists.1 h
  have hmem := List.mem_of_find?_eq_some he
  have hpred := List.find?_some he
  have hwfe := hwf e hmem
  rcases Bool.or_eq_true_iff.1 hpred with hc | hc <;>
    obtain ⟨h1, h2⟩ := Bool.and_eq_true_iff.1 hc
  · rw [← eq_of_beq h1, ← eq_of_beq h2]
    exact hwfe
  · rw [← eq_of_beq h1, ← eq_of_beq h2]
    exact ⟨hwfe.2, hwfe.1⟩

lemma chain_mem_nodeIds {g : Graph α} (hwf : g.WF) :
    ∀ (p : List ℕ) (a : ℕ), List.Chain' (fun x y => adjacent g x y = true) (a :: p) →
      ∀ x ∈ p, x ∈ nodeIds g := by
  intro p
  induction p with
  | nil => intro a _ x hx; cases hx
  | cons b rest ih =>
    intro a hchain x hx
    rw [List.chain'_cons] at hchain
    rcases List.mem_cons.1 hx with rfl | hx'
    · exact (adjacent_mem hwf hchain.1).2
    · exact ih b hchain.2 x hx'

lemma nodup_length_le {p l : List ℕ} (hnd : p.Nodup) (hsub : ∀ x ∈ p, x ∈ l) :
    p.length ≤ l.length := by
  calc p.length = p.toFinset.card := (List.toFinset_card_of_nodup hnd).symm
    _ ≤ l.toFinset.card := by
        apply Finset.card_le_card
        intro x hx
        rw [List.mem_toFinset] at hx ⊢
        exact hsub x hx
    _ ≤ l.length := l.toFinset_card_le

lemma spa_sound {g : Graph α} {t : ℕ} :
    ∀ (fuel u : ℕ) (visited : List ℕ) (p : List ℕ),
      p ∈ simplePathsAux g t fuel u visited → u ∉ visited →
      p.head? = some u ∧ p.getLast? = some t ∧
        List.Chain' (fun x y => adjacent g x y = true) p ∧ p.Nodup ∧
        ∀ x ∈ p, x ∉ visited := by
  intro fuel
  induction fuel with
  | zero =>
    intro u visited p hp hu
    by_cases h : u = t
    · subst h
      simp [simplePathsAux] at hp
      subst hp
      refine ⟨rfl, rfl, List.chain'_singleton u, List.nodup_singleton u, ?_⟩
      intro x hx
      rw [List.mem_singleton] at hx
      subst hx
      exact hu
    · simp only [simplePathsAux, if_neg h] at hp
      cases hp
  | succ fuel ih =>
    intro u visited p hp hu
    by_cases h : u = t
    · subst h
      simp [simplePathsAux] at hp
      subst hp
      refine ⟨rfl, rfl, List.chain'_singleton u, List.nodup_singleton u, ?_⟩
      intro x hx
      rw [List.mem_singleton] at hx
      subst hx
      exact hu
    · simp only [simplePathsAux, if_neg h, List.mem_flatMap] at hp
      obtain ⟨v, hv, hpv⟩ := hp
      rw [List.mem_filter] at hv
      obtain ⟨hvnode, hvcond⟩ := hv
      obtain ⟨hadj, hvis⟩ := Bool.and_eq_true_iff.1 hvcond
      rw [Bool.not_eq_true'] at hvis
      have hvnotmem : v ∉ u :: visited := by
        intro hcontra
        have hc : (u :: visited).contains v = true := List.elem_eq_true_of_mem hcontra
        rw [hc] at hvis
        cases hvis
      rw [List.mem_map] at hpv
      obtain ⟨q, hq, rfl⟩ := hpv
      obtain ⟨qhead, qlast, qchain, qnodup, qdisj⟩ := ih v (u :: visited) q hq hvnotmem
      obtain ⟨q', rfl⟩ : ∃ q', q = v :: q' := by
        cases q with
        | nil => cases qhead
        | cons a q' =>
          rw [List.head?_cons, Option.some_inj] at qhead
          exact ⟨q', by rw [qhead]⟩
      refine ⟨rfl, ?_, ?_, ?_, ?_⟩
      · rw [List.getLast?_cons_cons]
        exact qlast
      · rw [List.chain'_cons]
        exact ⟨hadj, qchain⟩
      · rw [List.nodup_cons]
        refine ⟨?_, qnodup⟩
        intro hcontra
        exact (qdisj u hcontra) (List.mem_cons_self u visited)
      · intro x hx
        rcases List.mem_cons.1 hx with rfl | hx'
        · exact hu
        · intro hcontra
          exact (qdisj x hx') (List.mem_cons_of_mem u hcontra)

lemma spa_complete {g : Graph α} {t : ℕ} :
    ∀ (p : List ℕ) (fuel u : ℕ) (visited : List ℕ),
      p.head? = some u → p.getLast? = some t →
      List.Chain' (fun x y => adjacent g x y = true) p → p.Nodup →
      (∀ x ∈ p, x ∉ visited) → (∀ x ∈ p.tail, x ∈ nodeIds g) →
      p.length ≤ fuel + 1 →
      p ∈ simplePathsAux g t fuel u visited := by
  intro p
  induction p with
  | nil => intro fuel u visited hhead; cases hhead
  | cons a rest ih =>
    intro fuel u visited hhead hlast hchain hnodup hdisj hmem hlen
    rw [List.head?_cons, Option.some_inj] at hhead
    subst hhead
    cases rest with
    | nil =>
      have ha : a = t := by simpa using hlast
      subst ha
      cases fuel <;> simp [simplePathsAux]
    | cons b rest' =>
      have hlast' : (b :: rest').getLast? = some t := by
        rw [← List.getLast?_cons_cons (a := a)]
        exact hlast
      have hne : a ≠ t := by
        intro hcontra
        have htmem : t ∈ b :: rest' := List.mem_of_getLast?_eq_some hlast'
        exact absurd htmem (hcontra ▸ (List.nodup_cons.1 hnodup).1)
      cases fuel with
      | zero => simp at hlen
      | succ fuel' =>
        simp only [simplePathsAux, if_neg hne, List.mem_flatMap]
        refine ⟨b, ?_, ?_⟩
        · rw [List.mem_filter]
          refine ⟨hmem b (List.mem_cons_self b rest'), ?_⟩
          rw [Bool.and_eq_true_iff]
          constructor
          · exact (List.chain'_cons.1 hchain).1
          · rw [Bool.not_eq_true']
            rw [Bool.eq_false_iff]
            intro hcontra
            have hbmem : b ∈ a :: visited := List.elem_iff.1 hcontra
            rcases List.mem_cons.1 hbmem with hb | hb
            · exact (List.nodup_cons.1 hnodup).1 (hb ▸ List.mem_cons_self b rest')
            · exact hdisj b (List.mem_cons_of_mem a (List.mem_cons_self b rest')) hb
        · rw [List.mem_map]
          refine ⟨b :: rest', ?_, rfl⟩
          apply ih fuel' b (a :: visited)
          · rfl
          · exact hlast'
          · exact (List.chain'_cons.1 hchain).2
          · exact (List.nodup_cons.1 hnodup).2
          · intro x hx
            intro hcontra
            rcases List.mem_cons.1 hcontra with rfl | hx'
            · exact (List.nodup_cons.1 hnodup).1 hx
            · exact hdisj x (List.mem_cons_of_mem a hx) hx'
          · intro x hx
            exact hmem x (List.mem_cons_of_mem b hx)
          · simp only [List.length_cons] at hlen ⊢
            omega

lemma nearest_mem {d : Metric α} {g : Graph α} {X Y : α} {s : ℕ}
    (h : nearestNode d g X Y = some s) : s ∈ nodeIds g := by
  unfold nearestNode at h
  obtain ⟨q, hq, rfl⟩ := Option.map_eq_some'.1 h
  exact List.mem_map_of_mem Prod.fst (List.argmin_mem hq)

lemma interiorNodes_spine (x y x' y' : α) (ns : List ℕ) :
    interiorNodes (PathElem.intersection x y ::
      (ns.map PathElem.stop ++ [PathElem.intersection x' y'])) = ns := by
  induction ns with
  | nil => rfl
  | cons n ns ih =>
    simp only [List.map_cons, List.cons_append]
    show n :: interiorNodes (PathElem.intersection x y ::
      (ns.map PathElem.stop ++ [PathElem.intersection x' y'])) = n :: ns
    rw [ih]

lemma path_mem_spa {busG : Graph α} (hwf : busG.WF) {s t : ℕ}
    (hsmem : s ∈ nodeIds busG) {q : List ℕ} (hq : IsPathNx busG s t q) :
    q ∈ simplePathsAux busG t (nodeIds busG).length s [] := by
  obtain ⟨hhead, hlast, hchain, hnd⟩ := hq
  obtain ⟨q', rfl⟩ : ∃ q', q = s :: q' := by
    cases q with
    | nil => cases hhead
    | cons a q' =>
      rw [List.head?_cons, Option.some_inj] at hhead
      exact ⟨q', by rw [hhead]⟩
  have hsub : ∀ x ∈ s :: q', x ∈ nodeIds busG := by
    intro x hx
    rcases List.mem_cons.1 hx with rfl | hx'
    · exact hsmem
    · exact chain_mem_nodeIds hwf q' s hchain x hx'
  apply spa_complete (s :: q') (nodeIds busG).length s []
  · rfl
  · exact hlast
  · exact hchain
  · exact hnd
  · exact fun x _ => List.not_mem_nil x
  · exact fun x hx => hsub x (List.mem_cons_of_mem s hx)
  · exact Nat.le_trans (nodup_length_le hnd hsub) (Nat.le_succ _)

lemma find_path_spine {d : Metric α} {busG g : Graph α} {src dst : α × α}
    {p : List (PathElem α)}
    (hp : find_path d busG g src dst = some p) (hne : p ≠ []) :
    ∃ s t ns, nearestNode d busG src.2 src.1 = some s ∧
      nearestNode d busG dst.2 dst.1 = some t ∧
      shortest_path busG s t = some ns ∧
      p = PathElem.intersection src.2 src.1 ::
        (ns.map PathElem.stop ++ [PathElem.intersection dst.2 dst.1]) := by
  cases ht : nearestNode d busG dst.2 dst.1 with
  | none =>
    simp only [find_path, ht] at hp
    cases hp
  | some t =>
    cases hs : nearestNode d busG src.2 src.1 with
    | none =>
      simp only [find_path, ht, hs] at hp
      cases hp
    | some s =>
      simp only [find_path, ht, hs] at hp
      cases hsp : shortest_path busG s t with
      | none =>
        rw [hsp] at hp
        exact absurd (Option.some_inj.1 hp).symm hne
      | some ns =>
        rw [hsp] at hp
        exact ⟨s, t, ns, rfl, rfl, hsp, (Option.some_inj.1 hp).symm⟩

end Lemmas

section DemoLemmas

variable {α : Type}

lemma demoLegLines_eq_collapseAux (g : Graph α) :
    ∀ (p : List (PathElem α)) (cur : String),
      demoLegLines g cur p = collapseAux cur (stopLines g p) := by
  intro p
  induction p with
  | nil => intro cur; rfl
  | cons e rest ih =>
    intro cur
    cases e with
    | intersection a b =>
      show demoLegLines g cur rest = collapseAux cur (stopLines g rest)
      exact ih cur
    | stop n =>
      cases hattr : getNodeAttrs g n with
      | none =>
        simp only [demoLegLines, stopLines, hattr]
        exact ih cur
      | some a =>
        cases hname : a.name with
        | none =>
          simp only [demoLegLines, stopLines, hattr, hname]
          exact ih cur
        | some nm =>
          cases hline : a.line with
          | none =>
            simp only [demoLegLines, stopLines, hattr, hname, hline]
            exact ih cur
          | some l =>
            simp only [demoLegLines, stopLines, hattr, hname, hline, collapseAux]
            by_cases hl : l = cur
            · rw [if_neg (by simp [hl]), if_pos hl]
              exact ih cur
            · rw [if_pos hl, if_neg hl]
              rw [ih l]

lemma collapseAux_chain :
    ∀ (l : List String) (cur : String),
      List.Chain' (· ≠ ·) (collapseAux cur l) ∧
        ∀ x, (collapseAux cur l).head? = some x → x ≠ cur := by
  intro l
  induction l with
  | nil => intro cur; exact ⟨List.chain'_nil, fun x hx => by cases hx⟩
  | cons b rest ih =>
    intro cur
    by_cases hb : b = cur
    · simp only [collapseAux, if_pos hb]
      exact ih cur
    · simp only [collapseAux, if_neg hb]
      constructor
      · rw [List.chain'_cons']
        refine ⟨?_, (ih b).1⟩
        intro y hy
        exact fun hby => (ih b).2 y hy hby.symm
      · intro x hx
        rw [List.head?_cons, Option.some_inj] at hx
        subst hx
        exact hb

end DemoLemmas

/-! ### Claim theorems -/

/-- C1 (counterexample): in Scenario A — a direct 1000 m bus hop against a
100 m + 100 m two-hop alternative — `find_path` returns the node path
`[1, 3]`, although `[1, 2, 3]` is a path between the same snapped nodes with
strictly smaller total CostModel time.  `find_path` minimises the NetworkX
`weight='length'` cost (the default `1` per edge, since buses-graph edges
store their length under `distance`), not the time; so it is not
time-optimal. -/
theorem c1_counterexample :
    find_path dSq (busGexA ℤ) (gEmpty ℤ) srcEx dstEx = some pEx ∧
    interiorNodes pEx = [1, 3] ∧
    IsPathNx (busGexA ℚ) 1 3 [1, 2, 3] ∧
    specBusPathTime (busGexA ℚ) [1, 2, 3] < specBusPathTime (busGexA ℚ) [1, 3] := by
  refine ⟨by decide, by decide, ⟨rfl, rfl, ?_, by decide⟩, ?_⟩
  · exact List.chain'_cons.2 ⟨by decide, List.chain'_cons.2 ⟨by decide, List.chain'_singleton 3⟩⟩
  · have h12 : busEdgeLengthMeters (busGexA ℚ) 1 2 = 100 := rfl
    have h23 : busEdgeLengthMeters (busGexA ℚ) 2 3 = 100 := rfl
    have h13 : busEdgeLengthMeters (busGexA ℚ) 1 3 = 1000 := rfl
    simp only [specBusPathTime, h12, h23, h13]
    norm_num [specEdgeTime]

/-- C1 (amended): the node path returned by `find_path` is a path of the
buses graph between the snapped nodes that minimises the total NetworkX
`weight='length'` cost — the `length` edge attribute, defaulting to `1` on
every buses-graph edge since those store their length as `distance` — over
all paths between the snapped nodes; it does not minimise CostModel time. -/
theorem c1_amended {α : Type} [LinearOrderedCommRing α] (d : Metric α)
    (busG g : Graph α) (src dst : α × α) (p : List (PathElem α)) (hwf : busG.WF)
    (hp : find_path d busG g src dst = some p) (hne : p ≠ []) :
    ∃ s t, nearestNode d busG src.2 src.1 = some s ∧
      nearestNode d busG dst.2 dst.1 = some t ∧
      IsPathNx busG s t (interiorNodes p) ∧
      ∀ q, IsPathNx busG s t q →
        pathWeight busG (interiorNodes p) ≤ pathWeight busG q := by
  obtain ⟨s, t, ns, hs, ht, hsp, rfl⟩ := find_path_spine hp hne
  have hmem : ns ∈ simplePathsAux busG t (nodeIds busG).length s [] :=
    List.argmin_mem hsp
  have hsound := spa_sound (nodeIds busG).length s [] ns hmem (List.not_mem_nil s)
  refine ⟨s, t, hs, ht, ?_, ?_⟩
  · rw [interiorNodes_spine]
    exact ⟨hsound.1, hsound.2.1, hsound.2.2.1, hsound.2.2.2.1⟩
  · intro q hq
    rw [interiorNodes_spine]
    exact List.le_of_mem_argmin (path_mem_spa hwf (nearest_mem hs) hq) hsp

/-- C1 (witness): the amended optimality statement instantiated on
Scenario A. -/
theorem c1_amended_witness :
    ∃ s t, nearestNode dSq (busGexA ℤ) srcEx.2 srcEx.1 = some s ∧
      nearestNode dSq (busGexA ℤ) dstEx.2 dstEx.1 = some t ∧
      IsPathNx (busGexA ℤ) s t (interiorNodes pEx) ∧
      ∀ q, IsPathNx (busGexA ℤ) s t q →
        pathWeight (busGexA ℤ) (interiorNodes pEx) ≤ pathWeight (busGexA ℤ) q :=
  c1_amended dSq (busGexA ℤ) (gEmpty ℤ) srcEx dstEx pEx (by decide) (by decide)
    (by decide)

/-- C2 (counterexample): composing a non-empty street graph with a non-empty
transit graph, the stop node `2` of the resulting city graph has no incident
edge at all — in particular no transfer edge to the nearest intersection.
`city.build_city_graph` only composes the graphs; it synthesises no transfer
edges. -/
theorem c2_counterexample :
    getNodeAttrs (build_city_graph g1c g2c).1 2 =
      some { x := 1, y := 1, name := some "Pl de Catalunya", line := some "100",
             type := some "stop" } ∧
    g1c.nodes ≠ [] ∧ g2c.nodes ≠ [] ∧
    incidentEdges (build_city_graph g1c g2c).1 2 = [] := by
  refine ⟨by decide, by decide, by decide, by decide⟩

/-- C2 (amended): `build_city_graph` adds no edges beyond those of its two
inputs: a node with no incident edge in either input graph has no incident
edge in the composed city graph, so a stop isolated in the transit graph
stays isolated (no transfer edge is synthesised). -/
theorem c2_amended {α : Type} (g1 g2 : Graph α) (n : ℕ)
    (h1 : incidentEdges g1 n = []) (h2 : incidentEdges g2 n = []) :
    incidentEdges (build_city_graph g1 g2).1 n = [] := by
  unfold incidentEdges at h1 h2
  show ((setNodeType "intersection" g1).edges ++
    (setNodeType "stop" g2).edges).filter _ = []
  rw [List.filter_append]
  have e1 : (setNodeType "intersection" g1).edges = g1.edges := rfl
  have e2 : (setNodeType "stop" g2).edges = g2.edges := rfl
  rw [e1, e2, h1, h2]
  rfl

/-- C2 (witness): the amended statement instantiated on the concrete
one-stop scenario. -/
theorem c2_amended_witness :
    incidentEdges (build_city_graph g1c g2c).1 2 = [] :=
  c2_amended g1c g2c 2 (by decide) (by decide)

/-- C3 (counterexample): `find_path` does not snap to the argument graph.
With an argument graph that has no nodes at all it still succeeds (rather
than failing with any `UnreachableCoordinate`-like error), and with the
one-node argument graph `gFar` it returns a path through stops `1` and `3`
of the internally fetched buses graph, never through `gFar`'s only node
`99`. -/
theorem c3_counterexample :
    (nodeIds (gEmpty ℤ) = [] ∧
      find_path dSq (busGexA ℤ) (gEmpty ℤ) srcEx dstEx = some pEx ∧ pEx ≠ []) ∧
    (nodeIds gFar = [99] ∧
      find_path dSq (busGexA ℤ) gFar srcEx dstEx = some pEx ∧
      PathElem.stop 99 ∉ pEx) := by
  exact ⟨⟨rfl, by decide, by decide⟩, ⟨rfl, by decide, by decide⟩⟩

/-- C3 (amended): the endpoints are snapped to the buses graph fetched
inside `find_path`, not to the argument graph: the result is entirely
independent of the argument graph; the call fails (an exception escapes)
exactly when the buses graph is empty, whatever the argument graph; and a
non-empty result starts and ends at the buses-graph nodes nearest (under the
distance function, first-listed on ties) to the source and destination. -/
theorem c3_amended {α : Type} [LinearOrderedCommRing α] (d : Metric α)
    (busG gA gB : Graph α) (src dst : α × α) :
    find_path d busG gA src dst = find_path d busG gB src dst ∧
    ((find_path d busG gA src dst).isSome ↔ busG.nodes ≠ []) ∧
    ∀ p, find_path d busG gA src dst = some p → p ≠ [] →
      (interiorNodes p).head? = nearestNode d busG src.2 src.1 ∧
      (interiorNodes p).getLast? = nearestNode d busG dst.2 dst.1 := by
  refine ⟨rfl, ?_, ?_⟩
  · constructor
    · intro hsome hnil
      have hnone : nearestNode d busG dst.2 dst.1 = none := by
        unfold nearestNode
        rw [List.argmin_eq_none.2 hnil]
        rfl
      simp only [find_path, hnone] at hsome
      simp at hsome
    · intro hne
      obtain ⟨t, ht⟩ : ∃ t, nearestNode d busG dst.2 dst.1 = some t := by
        unfold nearestNode
        cases hm : busG.nodes.argmin (fun q => d (dst.1, dst.2) (q.2.y, q.2.x)) with
        | none => exact absurd (List.argmin_eq_none.1 hm) hne
        | some q => exact ⟨q.1, rfl⟩
      obtain ⟨s, hs⟩ : ∃ s, nearestNode d busG src.2 src.1 = some s := by
        unfold nearestNode
        cases hm : busG.nodes.argmin (fun q => d (src.1, src.2) (q.2.y, q.2.x)) with
        | none => exact absurd (List.argmin_eq_none.1 hm) hne
        | some q => exact ⟨q.1, rfl⟩
      simp only [find_path, ht, hs]
      cases shortest_path busG s t <;> simp
  · intro p hp hne
    obtain ⟨s, t, ns, hs, ht, hsp, rfl⟩ := find_path_spine hp hne
    have hsound := spa_sound (nodeIds busG).length s [] ns
      (List.argmin_mem hsp) (List.not_mem_nil s)
    rw [interiorNodes_spine, hs, ht]
    exact ⟨hsound.1, hsound.2.1⟩

/-- C3 (witness): the amended statement instantiated on Scenario A with two
different argument graphs. -/
theorem c3_amended_witness :
    find_path dSq (busGexA ℤ) (gEmpty ℤ) srcEx dstEx =
      find_path dSq (busGexA ℤ) gFar srcEx dstEx ∧
    ((find_path dSq (busGexA ℤ) (gEmpty ℤ) srcEx dstEx).isSome ↔
      (busGexA ℤ).nodes ≠ []) ∧
    ∀ p, find_path dSq (busGexA ℤ) (gEmpty ℤ) srcEx dstEx = some p → p ≠ [] →
      (interiorNodes p).head? = nearestNode dSq (busGexA ℤ) srcEx.2 srcEx.1 ∧
      (interiorNodes p).getLast? = nearestNode dSq (busGexA ℤ) dstEx.2 dstEx.1 :=
  c3_amended dSq (busGexA ℤ) (gEmpty ℤ) gFar srcEx dstEx

/-- C4 (counterexample): for a 1000 m (= 1 km) edge at the walking speed of
5 km/h, the spec's seconds formula gives 720, but `calculate_travel_time`
returns 12 when fed the distance in kilometers as `plot_path` does (it
returns minutes, not seconds), and 12000 when fed the length in meters —
never 720. -/
theorem c4_counterexample :
    calculate_travel_time 1 walking_speed ≠ specEdgeTime 1000 walking_speed ∧
    calculate_travel_time 1000 walking_speed ≠ specEdgeTime 1000 walking_speed := by
  constructor <;> norm_num [calculate_travel_time, specEdgeTime, walking_speed]

/-- C4 (amended): `calculate_travel_time` takes a distance in kilometers and
a speed in km/h and returns the travel time in minutes: sixty times its
value at `L / 1000` km equals the spec's seconds formula
`L / (speed * 1000 / 3600)` for `L` meters; a zero-length edge costs 0; and
the speeds configured in `plot_path` are `walking_speed = 5` and
`bus_speed = 20` km/h (there is no separate `Transfer` mode: stop-to-stop
segments across different lines are costed at `walking_speed`). -/
theorem c4_amended (L s : ℚ) (hs : s ≠ 0) :
    60 * calculate_travel_time (L / 1000) s = specEdgeTime L s ∧
    calculate_travel_time 0 s = 0 ∧ walking_speed = 5 ∧ bus_speed = 20 := by
  refine ⟨?_, ?_, rfl, rfl⟩
  · unfold calculate_travel_time specEdgeTime
    field_simp
    ring
  · simp [calculate_travel_time]

/-- C4 (witness): the amended statement at 1000 meters and walking speed. -/
theorem c4_amended_witness :
    60 * calculate_travel_time (1000 / 1000) 5 = specEdgeTime 1000 5 ∧
    calculate_travel_time 0 5 = 0 ∧ walking_speed = 5 ∧ bus_speed = 20 :=
  c4_amended 1000 5 (by norm_num)

/-- C5: the leg-header loop of `demo.main` prints exactly one leg per
maximal contiguous run of path elements sharing a `line` value: its output
collapses each maximal run to a single header, and consecutive printed
headers always differ.  In particular two consecutive bus hops on different
lines yield two legs, never one. -/
theorem c5_legGrouping {α : Type} (g : Graph α) (p : List (PathElem α))
    (h : "" ∉ stopLines g p) :
    demoLegLines g "" p = collapseRuns (stopLines g p) ∧
    List.Chain' (· ≠ ·) (demoLegLines g "" p) := by
  have hbridge := demoLegLines_eq_collapseAux g p ""
  constructor
  · rw [hbridge]
    cases hsl : stopLines g p with
    | nil => rfl
    | cons l rest =>
      have hl : ¬ l = "" := by
        rw [hsl] at h
        intro hcontra
        exact h (hcontra ▸ List.mem_cons_self l rest)
      show collapseAux "" (l :: rest) = collapseRuns (l :: rest)
      simp only [collapseAux, collapseRuns]
      rw [if_neg hl]
  · rw [hbridge]
    exact (collapseAux_chain (stopLines g p) "").1

/-- C5 (witness): Scenario D — two consecutive `L1` hops followed by two
consecutive `L2` hops produce exactly the two legs `["L1", "L2"]`. -/
theorem c5_legGrouping_witness :
    ("" ∉ stopLines g5 p5) ∧
    (demoLegLines g5 "" p5 = collapseRuns (stopLines g5 p5) ∧
      List.Chain' (· ≠ ·) (demoLegLines g5 "" p5)) ∧
    stopLines g5 p5 = ["L1", "L1", "L2", "L2"] ∧
    demoLegLines g5 "" p5 = ["L1", "L2"] :=
  ⟨by decide, c5_legGrouping g5 p5 (by decide), by decide, by decide⟩

/-- C6: `find_path` returns the ordinary value `[]` (no exception) exactly
when no path exists between the two snapped nodes of the buses graph. -/
theorem c6_noPath {α : Type} [LinearOrderedCommRing α] (d : Metric α)
    (busG g : Graph α) (src dst : α × α) (s t : ℕ) (hwf : busG.WF)
    (ht : nearestNode d busG dst.2 dst.1 = some t)
    (hs : nearestNode d busG src.2 src.1 = some s) :
    (find_path d busG g src dst = some [] ↔ ¬ ∃ p, IsPathNx busG s t p) := by
  simp only [find_path, ht, hs]
  cases hsp : shortest_path busG s t with
  | some ns =>
    have hsound := spa_sound (nodeIds busG).length s [] ns
      (List.argmin_mem hsp) (List.not_mem_nil s)
    constructor
    · intro hcontra
      exact absurd (Option.some_inj.1 hcontra) (List.cons_ne_nil _ _)
    · intro hcontra
      exact absurd ⟨ns, hsound.1, hsound.2.1, hsound.2.2.1, hsound.2.2.2.1⟩ hcontra
  | none =>
    constructor
    · rintro - ⟨p, hq⟩
      have hmem := path_mem_spa hwf (nearest_mem hs) hq
      rw [List.argmin_eq_none.1 hsp] at hmem
      cases hmem
    · intro _
      rfl

/-- C6 (witness): on the disconnected two-stop buses graph, `find_path`
returns `[]`, and indeed no path between the snapped stops exists. -/
theorem c6_noPath_witness :
    (busGdisc ℤ).WF ∧
    nearestNode dSq (busGdisc ℤ) dstEx.2 dstEx.1 = some 2 ∧
    nearestNode dSq (busGdisc ℤ) srcEx.2 srcEx.1 = some 1 ∧
    (find_path dSq (busGdisc ℤ) (gEmpty ℤ) srcEx dstEx = some [] ↔
      ¬ ∃ p, IsPathNx (busGdisc ℤ) 1 2 p) :=
  ⟨by decide, by decide, by decide,
    c6_noPath dSq (busGdisc ℤ) (gEmpty ℤ) srcEx dstEx 1 2 (by decide) (by decide)
      (by decide)⟩

/-- C7 (counterexample): `build_city_graph` mutates its first input — after
the call, the street graph's nodes carry a `type` attribute they did not
have before, so the input graph is changed. -/
theorem c7_counterexample :
    (build_city_graph g1c g2c).2.1 ≠ g1c ∧
    (getNodeAttrs g1c 1).map (fun a => a.type) = some none ∧
    (getNodeAttrs (build_city_graph g1c g2c).2.1 1).map (fun a => a.type) =
      some (some "intersection") := by
  exact ⟨by decide, by decide, by decide⟩

/-- C7 (amended): the only mutation `build_city_graph` performs on its
inputs is writing the `type` node attribute (`'intersection'` on every
street-graph node, `'stop'` on every transit-graph node): node ids,
coordinates, `name`/`line` attributes and the edge lists of both inputs are
unchanged.  (It additionally pickles the composed graph to disk, a side
effect outside the graphs themselves.) -/
theorem c7_amended {α : Type} (g1 g2 : Graph α) :
    ((build_city_graph g1 g2).2.1.nodes.map stripType = g1.nodes.map stripType) ∧
    ((build_city_graph g1 g2).2.2.nodes.map stripType = g2.nodes.map stripType) ∧
    ((build_city_graph g1 g2).2.1.edges = g1.edges) ∧
    ((build_city_graph g1 g2).2.2.edges = g2.edges) ∧
    (∀ q ∈ (build_city_graph g1 g2).2.1.nodes, q.2.type = some "intersection") ∧
    (∀ q ∈ (build_city_graph g1 g2).2.2.nodes, q.2.type = some "stop") := by
  refine ⟨?_, ?_, rfl, rfl, ?_, ?_⟩
  · show (g1.nodes.map _).map stripType = g1.nodes.map stripType
    rw [List.map_map]
    rfl
  · show (g2.nodes.map _).map stripType = g2.nodes.map stripType
    rw [List.map_map]
    rfl
  · intro q hq
    obtain ⟨r, -, rfl⟩ := List.mem_map.1 hq
    rfl
  · intro q hq
    obtain ⟨r, -, rfl⟩ := List.mem_map.1 hq
    rfl

/-- C7 (witness): the amended mutation description instantiated on the
concrete scenario graphs. -/
theorem c7_amended_witness :
    ((build_city_graph g1c g2c).2.1.nodes.map stripType = g1c.nodes.map stripType) ∧
    ((build_city_graph g1c g2c).2.2.nodes.map stripType = g2c.nodes.map stripType) ∧
    ((build_city_graph g1c g2c).2.1.edges = g1c.edges) ∧
    ((build_city_graph g1c g2c).2.2.edges = g2c.edges) ∧
    (∀ q ∈ (build_city_graph g1c g2c).2.1.nodes, q.2.type = some "intersection") ∧
    (∀ q ∈ (build_city_graph g1c g2c).2.2.nodes, q.2.type = some "stop") :=
  c7_amended g1c g2c

/-- C8: `calculate_travel_time` is monotonically increasing in the distance
for a fixed positive speed, and monotonically decreasing in the speed for a
fixed non-negative distance. -/
theorem c8_monotone (a b s t : ℚ) (hs : 0 < s) (ht : 0 < t) :
    (a ≤ b → calculate_travel_time a s ≤ calculate_travel_time b s) ∧
    (0 ≤ a → s ≤ t → calculate_travel_time a t ≤ calculate_travel_time a s) := by
  simp only [calculate_travel_time]
  constructor
  · intro hab
    gcongr
  · intro ha hst
    gcongr

/-- C8 (witness): monotonicity at concrete distances 100 ≤ 200 km and
speeds 5 ≤ 20 km/h. -/
theorem c8_monotone_witness :
    calculate_travel_time 100 5 ≤ calculate_travel_time 200 5 ∧
    calculate_travel_time 100 20 ≤ calculate_travel_time 100 5 :=
  ⟨(c8_monotone 100 200 5 20 (by norm_num) (by norm_num)).1 (by norm_num),
   (c8_monotone 100 200 5 20 (by norm_num) (by norm_num)).2 (by norm_num) (by norm_num)⟩

/-- C9: a non-empty `find_path` result has at least 3 elements: it is
exactly the raw source coordinates as an `'intersection'` element, followed
by one `'stop'` element per node of the computed shortest path, followed by
the raw destination coordinates as an `'intersection'` element. -/
theorem c9_structure {α : Type} [LinearOrderedCommRing α] (d : Metric α)
    (busG g : Graph α) (src dst : α × α) (p : List (PathElem α))
    (hp : find_path d busG g src dst = some p) (hne : p ≠ []) :
    3 ≤ p.length ∧
    ∃ s t ns, nearestNode d busG src.2 src.1 = some s ∧
      nearestNode d busG dst.2 dst.1 = some t ∧
      shortest_path busG s t = some ns ∧ ns ≠ [] ∧
      p = PathElem.intersection src.2 src.1 ::
        (ns.map PathElem.stop ++ [PathElem.intersection dst.2 dst.1]) := by
  obtain ⟨s, t, ns, hs, ht, hsp, rfl⟩ := find_path_spine hp hne
  have hsound := spa_sound (nodeIds busG).length s [] ns
    (List.argmin_mem hsp) (List.not_mem_nil s)
  have hnsne : ns ≠ [] := by
    intro hcontra
    rw [hcontra] at hsound
    cases hsound.1
  constructor
  · have : 1 ≤ ns.length := List.length_pos.2 hnsne
    simp only [List.length_cons, List.length_append, List.length_map,
      List.length_singleton]
    omega
  · exact ⟨s, t, ns, hs, ht, hsp, hnsne, rfl⟩

/-- C9 (witness): the structure statement instantiated on Scenario A, where
the result is `[intersection 0 0, stop 1, stop 3, intersection 10 0]`. -/
theorem c9_structure_witness :
    3 ≤ pEx.length ∧
    ∃ s t ns, nearestNode dSq (busGexA ℤ) srcEx.2 srcEx.1 = some s ∧
      nearestNode dSq (busGexA ℤ) dstEx.2 dstEx.1 = some t ∧
      shortest_path (busGexA ℤ) s t = some ns ∧ ns ≠ [] ∧
      pEx = PathElem.intersection srcEx.2 srcEx.1 ::
        (ns.map PathElem.stop ++ [PathElem.intersection dstEx.2 dstEx.1]) :=
  c9_structure dSq (busGexA ℤ) (gEmpty ℤ) srcEx dstEx pEx (by decide) (by decide)

/-- C10 (counterexample): with a geocoder that finds no location, the
address `"Calle Aribau, 8, 08011 Barcelona"` — which is not one of the six
hard-coded cinema addresses — still gets hard-coded coordinates rather than
`(None, None)`, because `get_lat_long` substitutes `"Calle"` with `"C/"`
before consulting the registry. -/
theorem c10_counterexample :
    (get_lat_long (fun _ => some none) "Calle Aribau, 8, 08011 Barcelona").isSome =
      true ∧
    hardcodedCoords "Calle Aribau, 8, 08011 Barcelona" = none := by
  exact ⟨by decide, by decide⟩

/-- C10 (amended): `get_lat_long` never raises: it is total on every
geocoder outcome.  If the geocoder raises, it returns `(None, None)`; if the
geocoder finds no location, it returns the registry entry for the address
*after* the `"Calle"` → `"C/"` substitution — hard-coded coordinates for the
six known cinema addresses and `(None, None)` otherwise; and if the geocoder
finds a location, its latitude/longitude pair is returned. -/
theorem c10_amended (geocode : String → Option (Option (ℚ × ℚ)))
    (address : String) :
    (geocode (canonicalizeAddress address) = none →
      get_lat_long geocode address = none) ∧
    (geocode (canonicalizeAddress address) = some none →
      get_lat_long geocode address = hardcodedCoords (canonicalizeAddress address)) ∧
    (∀ c, geocode (canonicalizeAddress address) = some (some c) →
      get_lat_long geocode address = some c) := by
  refine ⟨?_, ?_, ?_⟩
  · intro h
    simp [get_lat_long, h]
  · intro h
    simp [get_lat_long, h]
  · intro c h
    simp [get_lat_long, h]

/-- C10 (witness): a not-found geocoder outcome on one of the six registry
addresses routes the result through the hard-coded registry. -/
theorem c10_amended_witness :
    get_lat_long (fun _ => some none) "C/ Aribau, 8, 08011 Barcelona" =
      hardcodedCoords (canonicalizeAddress "C/ Aribau, 8, 08011 Barcelona") :=
  (c10_amended (fun _ => some none) "C/ Aribau, 8, 08011 Barcelona").2.1 rfl

end CineBus
